import Mathlib

/-!
Verification of the end-to-end encryption core of a browser chat client.

The repository's crypto module (`lib/crypto`, a wrapper around libsodium and
the noble hkdf/sha256 package), the invite orchestrator (`lib/sui/invite.ts`),
the invite hook (`hooks/useEncryption.ts`) and the zkLogin derivation chain
(`lib/zklogin.ts`, `hooks/useZkLoginKeypair.ts`) are shallowly embedded here.

Modelling conventions:
* Bytes are `Nat`s; byte buffers (`Uint8Array`) are `List Nat`.
* The external cryptographic primitives (libsodium) are a `Sodium` structure of
  pure functions; operations that throw in JavaScript (`crypto_box_seal_open`,
  `crypto_secretbox_open_easy`, `from_base64`, `to_string`) return `Option`.
  `crypto_box_seal`'s internal ephemeral randomness is abstracted away (the
  claims under study use it only functionally).
* The randomness the repository's own code draws (`randombytes_buf`) is made
  explicit: an `Rng` byte stream is threaded through every repository function
  whose body can reach `sodium.randombytes_buf`.
* The noble package's `hkdf`/`sha256` and `TextEncoder.encode` are an `NobleExt`
  structure of pure functions.
* Documented libsodium contracts that theorems rely on (secret-box and
  sealed-box round trips, base64 and UTF-8 codec round trips) are stated as
  explicit hypotheses, and a small concrete `toySodium` model satisfying all
  of them is provided so that every hypothesis can be discharged on concrete
  inputs.
-/

-- ============================================
-- External primitive interfaces
-- ============================================

/-- `sodium.base64_variants`; the repository only ever passes `ORIGINAL`. -/
inductive B64Variant
  | ORIGINAL
  | ORIGINAL_NO_PADDING
  | URLSAFE
  | URLSAFE_NO_PADDING
deriving DecidableEq

/-- Result shape of `sodium.crypto_box_seed_keypair` (note: field `privateKey`). -/
structure SodiumKeypair where
  publicKey : List Nat
  privateKey : List Nat
deriving DecidableEq

/-- The libsodium operations the crypto module uses.  Pure-function model of
the external library; partial operations (which `throw` in JS) are `Option`. -/
structure Sodium where
  crypto_generichash : Nat → List Nat → List Nat
  crypto_box_seed_keypair : List Nat → SodiumKeypair
  crypto_scalarmult_base : List Nat → List Nat
  crypto_box_seal : List Nat → List Nat → List Nat
  crypto_box_seal_open : List Nat → List Nat → List Nat → Option (List Nat)
  crypto_secretbox_NONCEBYTES : Nat
  crypto_secretbox_easy : List Nat → List Nat → List Nat → List Nat
  crypto_secretbox_open_easy : List Nat → List Nat → List Nat → Option (List Nat)
  from_string : String → List Nat
  to_string : List Nat → Option String
  to_base64 : List Nat → B64Variant → String
  from_base64 : String → B64Variant → Option (List Nat)

/-- The noble-hashes functions and `TextEncoder` used by the zkLogin path.
`hkdf hash ikm salt info len` mirrors `hkdf(sha256, ikm, salt, info, length)`. -/
structure NobleExt where
  hkdf : (List Nat → List Nat) → List Nat → List Nat → List Nat → Nat → List Nat
  sha256 : List Nat → List Nat
  textEncode : String → List Nat

/-- Explicit model of the ambient random source behind `sodium.randombytes_buf`:
an infinite byte stream. -/
def Rng : Type := Nat → Nat

/-- `sodium.randombytes_buf(n)`: read `n` bytes off the stream, advancing it. -/
def randombytes_buf (n : Nat) (r : Rng) : List Nat × Rng :=
  ((List.range n).map r, fun i => r (n + i))

-- ============================================
-- lib/crypto: types and constants
-- ============================================

structure Keypair where
  publicKey : List Nat
  secretKey : List Nat
deriving DecidableEq

structure ZkLoginClaims where
  sub : String
  iss : String
  aud : String
  userSalt : String
deriving DecidableEq

def SIGN_MESSAGE : String := "sui-chat:derive-encryption-key:v1"

def MESSAGE_VERSION : Nat := 0x01

/-- `getSignMessage()` from the crypto module. -/
def getSignMessage : String := SIGN_MESSAGE

-- ============================================
-- lib/crypto: key derivation
-- ============================================

/-- `deriveEncryptionKeypair(signature)`: BLAKE2b (`crypto_generichash`) of the
signature gives a 32-byte seed, fed to `crypto_box_seed_keypair`.  The body
performs no call to `randombytes_buf`, so the threaded `Rng` is untouched. -/
def deriveEncryptionKeypair (s : Sodium) (signature : List Nat) (r : Rng) :
    Keypair × Rng :=
  let seed := s.crypto_generichash 32 signature
  let keypair := s.crypto_box_seed_keypair seed
  ({ publicKey := keypair.publicKey, secretKey := keypair.privateKey }, r)

/-- `deriveEncryptionKeypairFromZkLogin(claims)`: HKDF-SHA256 seed from the
stable JWT claims (ikm = userSalt, salt = `iss ++ ":" ++ aud` via template
string, info = sub, length 32), fed to `crypto_box_seed_keypair`. -/
def deriveEncryptionKeypairFromZkLogin (s : Sodium) (e : NobleExt)
    (claims : ZkLoginClaims) : Keypair :=
  let seed := e.hkdf e.sha256 (e.textEncode claims.userSalt)
    (e.textEncode (claims.iss ++ ":" ++ claims.aud)) (e.textEncode claims.sub) 32
  let keypair := s.crypto_box_seed_keypair seed
  { publicKey := keypair.publicKey, secretKey := keypair.privateKey }

/-- `createRandomSymmetricKey()`: 32 random bytes. -/
def createRandomSymmetricKey (r : Rng) : List Nat × Rng :=
  randombytes_buf 32 r

-- ============================================
-- lib/crypto: sealed box
-- ============================================

/-- `encryptWithPublicKey(data, publicKey)`. -/
def encryptWithPublicKey (s : Sodium) (data publicKey : List Nat) : List Nat :=
  s.crypto_box_seal data publicKey

/-- `decryptWithSecretKey(encryptedData, secretKey)`: recomputes the public key
by `crypto_scalarmult_base` and opens the sealed box; any failure (a JS throw)
is `none`. -/
def decryptWithSecretKey (s : Sodium) (encryptedData secretKey : List Nat) :
    Option (List Nat) :=
  let publicKey := s.crypto_scalarmult_base secretKey
  s.crypto_box_seal_open encryptedData publicKey secretKey

-- ============================================
-- lib/crypto: message cipher
-- ============================================

/-- `encryptMessage(message, key)`: fresh 24-byte nonce from
`randombytes_buf(crypto_secretbox_NONCEBYTES)`, secret-box encryption of the
UTF-8 bytes, then `version ++ nonce ++ ciphertext` base64-encoded with the
`ORIGINAL` variant. -/
def encryptMessage (s : Sodium) (message : String) (key : List Nat) (r : Rng) :
    String × Rng :=
  let nr := randombytes_buf s.crypto_secretbox_NONCEBYTES r
  let nonce := nr.fst
  let messageBytes := s.from_string message
  let ciphertext := s.crypto_secretbox_easy messageBytes nonce key
  let result := MESSAGE_VERSION :: (nonce ++ ciphertext)
  (s.to_base64 result B64Variant.ORIGINAL, nr.snd)

/-- `decryptMessage(encryptedMessage, key)`: base64-decode, check the version
byte, split nonce/ciphertext, secret-box open, decode UTF-8; every failure path
(including a JS throw) is `none`.  An empty decode gives `data[0] = undefined`,
which fails the strict version comparison. -/
def decryptMessage (s : Sodium) (encryptedMessage : String) (key : List Nat) :
    Option String :=
  match s.from_base64 encryptedMessage B64Variant.ORIGINAL with
  | none => none
  | some data =>
    match data with
    | [] => none
    | version :: rest =>
      if version ≠ MESSAGE_VERSION then none
      else
        let nonce := rest.take s.crypto_secretbox_NONCEBYTES
        let ciphertext := rest.drop s.crypto_secretbox_NONCEBYTES
        match s.crypto_secretbox_open_easy ciphertext nonce key with
        | none => none
        | some decrypted => s.to_string decrypted

/-- `toBase64(data)` utility. -/
def toBase64 (s : Sodium) (data : List Nat) : String :=
  s.to_base64 data B64Variant.ORIGINAL

/-- `fromBase64(base64)` utility (throws on bad input → `Option`). -/
def fromBase64 (s : Sodium) (base64 : String) : Option (List Nat) :=
  s.from_base64 base64 B64Variant.ORIGINAL

-- ============================================
-- lib/sui/invite.ts: invite orchestrator
-- ============================================

/-- `prepareEncryptedKeyForInvite(client, chatId, inviterAddress,
inviterSecretKey, inviteePublicKey)`.  The external on-chain fetch
`getEncryptedKeyFromChatRoom(client, chatId, inviterAddress)` is modelled by
its result `fetchKey` (that function catches its own errors and returns
`null`). -/
def prepareEncryptedKeyForInvite (s : Sodium) (fetchKey : Option (List Nat))
    (inviterSecretKey inviteePublicKey : List Nat) : Option (List Nat) :=
  match fetchKey with
  | none => none
  | some encryptedKey =>
    match decryptWithSecretKey s encryptedKey inviterSecretKey with
    | none => none
    | some decryptedMessageKey =>
      some (encryptWithPublicKey s decryptedMessageKey inviteePublicKey)

/-- Input type of `parsePublicKey`: `Uint8Array | string | number[]`. -/
inductive PKInput
  | bytes (b : List Nat)
  | str (s : String)
  | arr (l : List Int)

/-- JS line terminators, which the regex `.` does not match. -/
def isLineTerm (c : Char) : Bool :=
  c = '\n' ∨ c = '\r' ∨ c.toNat = 0x2028 ∨ c.toNat = 0x2029

/-- `str.match(/.{1,2}/g)`: greedy non-overlapping chunks of one or two
non-line-terminator characters (`null` result is the empty chunk list, as the
source maps it to `[]` via `|| []`). -/
def reChunks : List Char → List (List Char)
  | [] => []
  | c :: cs =>
    if isLineTerm c then reChunks cs
    else
      match cs with
      | [] => [[c]]
      | d :: ds =>
        if isLineTerm d then [c] :: reChunks ds
        else [c, d] :: reChunks ds

/-- Value of a hexadecimal digit character, if it is one. -/
def hexDigitVal : Char → Option Nat := fun c =>
  if '0' ≤ c ∧ c ≤ '9' then some (c.toNat - 48)
  else if 'a' ≤ c ∧ c ≤ 'f' then some (c.toNat - 87)
  else if 'A' ≤ c ∧ c ≤ 'F' then some (c.toNat - 55)
  else none

/-- Accumulate the value of the longest leading run of hex digits. -/
def hexPrefixAux : List Char → Nat → Nat
  | [], acc => acc
  | c :: cs, acc =>
    match hexDigitVal c with
    | some d => hexPrefixAux cs (acc * 16 + d)
    | none => acc

/-- JS string whitespace that `parseInt` trims. -/
def isJsSpace (c : Char) : Bool :=
  c = ' ' ∨ c = '\t' ∨ c = '\n' ∨ c = '\r' ∨ c.toNat = 11 ∨ c.toNat = 12 ∨
  c.toNat = 0xa0 ∨ c.toNat = 0xfeff

/-- `parseInt(str, 16)`: trim whitespace, optional sign, optional `0x`/`0X`
prefix, then the longest leading run of hex digits; `none` is `NaN`. -/
def parseIntHex (str : List Char) : Option Int :=
  let s1 := str.dropWhile isJsSpace
  let signAndRest : Int × List Char :=
    match s1 with
    | '-' :: r => (-1, r)
    | '+' :: r => (1, r)
    | _ => (1, s1)
  let s3 : List Char :=
    match signAndRest.snd with
    | '0' :: 'x' :: r => r
    | '0' :: 'X' :: r => r
    | _ => signAndRest.snd
  match s3 with
  | [] => none
  | c :: _ =>
    match hexDigitVal c with
    | none => none
    | some _ => some (signAndRest.fst * (hexPrefixAux s3 0 : Int))

/-- `Uint8Array` element coercion `ToUint8`: `NaN` becomes `0`, other numbers
are taken modulo 2^8 (mathematically, hence non-negative). -/
def toUint8 : Option Int → Nat
  | none => 0
  | some i => (i % 256).toNat

/-- The hex fallback branch of `parsePublicKey`:
`new Uint8Array(publicKey.match(/.{1,2}/g)?.map(byte => parseInt(byte, 16)) || [])`. -/
def hexFallback (str : String) : List Nat :=
  (reChunks str.data).map (fun chunk => toUint8 (parseIntHex chunk))

/-- `parsePublicKey(publicKey)`: a string is tried as base64 (`ORIGINAL`
variant) and on a decode throw falls to the hex interpretation (which itself
can never throw, so the `TextEncoder` fallback and the outer `catch` are dead
code); a number array is element-wise `ToUint8`-coerced; a `Uint8Array` is
returned as-is. -/
def parsePublicKey (s : Sodium) (publicKey : PKInput) : Option (List Nat) :=
  match publicKey with
  | PKInput.str st =>
    match s.from_base64 st B64Variant.ORIGINAL with
    | some b => some b
    | none => some (hexFallback st)
  | PKInput.arr l => some (l.map (fun x => toUint8 (some x)))
  | PKInput.bytes b => some b

-- ============================================
-- hooks/useEncryption.ts: useInviteToEncryptedChat
-- ============================================

/-- `prepareInvite` of `useInviteToEncryptedChat`: parse the invitee public
key, require exactly 32 bytes (an empty `Uint8Array` is truthy in JS, so only
`null` and the length test can reject), then delegate to
`prepareEncryptedKeyForInvite` with the inviter keypair's secret key. -/
def prepareInvite (s : Sodium) (fetchKey : Option (List Nat))
    (inviterKeypair : Keypair) (inviteePublicKey : PKInput) :
    Option (List Nat) :=
  match parsePublicKey s inviteePublicKey with
  | none => none
  | some inviteePublicKeyBytes =>
    if inviteePublicKeyBytes.length ≠ 32 then none
    else prepareEncryptedKeyForInvite s fetchKey inviterKeypair.secretKey
      inviteePublicKeyBytes

-- ============================================
-- lib/zklogin.ts and hooks/useZkLoginKeypair.ts
-- ============================================

/-- The JWT `aud` claim: `string | string[]`. -/
inductive AudClaim
  | str (a : String)
  | arr (l : List String)
deriving DecidableEq

/-- Decoded JWT payload fields used by `getZkLoginSessionData`.  A claim that
is absent from the JSON behaves like the empty string in the falsiness test
(`!undefined` and `!""` are both `true`), so missing `sub`/`iss` are modelled
as `""`; a missing `aud` is modelled as `AudClaim.str ""` for the same reason. -/
structure JwtPayload where
  sub : String
  iss : String
  aud : AudClaim
deriving DecidableEq

/-- JS falsiness of the `aud` claim: the empty string is falsy, but an array
is an object and is always truthy — even `[]` or `[""]`. -/
def audFalsy : AudClaim → Bool
  | AudClaim.str a => a = ""
  | AudClaim.arr _ => false

/-- `Array.isArray(aud) ? aud[0] : aud`; `[][0]` is `undefined`, which the
later template string renders as `"undefined"`. -/
def audFirst : AudClaim → String
  | AudClaim.str a => a
  | AudClaim.arr l => l.headD "undefined"

structure ZkLoginSessionData where
  jwt : String
  sub : String
  iss : String
  aud : String
deriving DecidableEq

/-- Results of the external collaborators the `derive` flow awaits:
the Enoki wallet session JWT, the JWT payload decoder, the expiry check
(wall-clock dependent), and the salt fetch (network; throws on failure). -/
structure DeriveEnv where
  jwtFromWallet : Option String
  decode : String → Option JwtPayload
  expired : String → Bool
  fetchSalt : String → Except String String

/-- `getZkLoginSessionData(wallet)`: `null` without a JWT, on a payload decode
failure, or when `!sub || !iss || !aud`; otherwise the claims with
`aud` normalized by `Array.isArray(aud) ? aud[0] : aud`. -/
def getZkLoginSessionData (env : DeriveEnv) : Option ZkLoginSessionData :=
  match env.jwtFromWallet with
  | none => none
  | some jwt =>
    match env.decode jwt with
    | none => none
    | some payload =>
      if payload.sub = "" ∨ payload.iss = "" ∨ audFalsy payload.aud then none
      else some { jwt := jwt, sub := payload.sub, iss := payload.iss,
                  aud := audFirst payload.aud }

/-- `Except.isErr`-style discriminator for the derive flow's outcome. -/
def isErr {ε α : Type} : Except ε α → Bool
  | Except.error _ => true
  | Except.ok _ => false

/-- The `derive` callback of `useZkLoginKeypair`: session data, JWT expiry
check, salt fetch, then `deriveEncryptionKeypairFromZkLogin`; every thrown
error is caught and surfaced as the hook's error state (`Except.error`). -/
def derive (s : Sodium) (e : NobleExt) (env : DeriveEnv) (isZkLogin : Bool) :
    Except String Keypair :=
  if !isZkLogin then Except.error "Not connected with zkLogin"
  else
    match getZkLoginSessionData env with
    | none => Except.error "Could not get zkLogin session data. Try reconnecting."
    | some sessionData =>
      if env.expired sessionData.jwt then Except.error "JWT has expired. Please reconnect."
      else
        match env.fetchSalt sessionData.jwt with
        | Except.error msg => Except.error msg
        | Except.ok userSalt =>
          Except.ok (deriveEncryptionKeypairFromZkLogin s e
            { sub := sessionData.sub, iss := sessionData.iss,
              aud := sessionData.aud, userSalt := userSalt })

-- ============================================
-- Spec-side definitions (for refinement comparisons)
-- ============================================

/-- The spec's seed formula for the claims-based path, written from its words:
KDF with input keying material = salt, derivation-salt = issuer `:` audience,
info = subject, output length 32. -/
def seedFromClaimsSpec (e : NobleExt) (c : ZkLoginClaims) : List Nat :=
  e.hkdf e.sha256 (e.textEncode c.userSalt)
    (e.textEncode (c.iss ++ ":" ++ c.aud)) (e.textEncode c.sub) 32

/-- Whether a regex chunk is a wholly valid hexadecimal string. -/
def isValidHexChunk (chunk : List Char) : Bool :=
  chunk ≠ [] ∧ chunk.all (fun c => (hexDigitVal c).isSome)

/-- The hex interpretation as the claim words it: each character pair that is
not valid hex is coerced to byte 0, a valid pair keeps its value. -/
def claimHexInterp (str : String) : List Nat :=
  (reChunks str.data).map (fun chunk =>
    if isValidHexChunk chunk then hexPrefixAux chunk 0 else 0)

/-- The orchestrator chain of the invite round trip: unwrap with the inviter's
secret key, then wrap for the invitee and unwrap with the invitee's secret
key. -/
def inviteChain (s : Sodium) (roomKey pkA skA pkB skB : List Nat) :
    Option (List Nat) :=
  (decryptWithSecretKey s (encryptWithPublicKey s roomKey pkA) skA).bind
    (fun k => decryptWithSecretKey s (encryptWithPublicKey s k pkB) skB)

-- ============================================
-- Documented contracts of the external primitives
-- ============================================

/-- libsodium contract: secret-box decryption inverts encryption under the
same nonce and key. -/
def SecretboxRoundtrip (s : Sodium) : Prop :=
  ∀ m n k, s.crypto_secretbox_open_easy (s.crypto_secretbox_easy m n k) n k = some m

/-- libsodium contract: a sealed box for the public key derived from `sk` by
base-point multiplication opens under `sk`. -/
def SealRoundtrip (s : Sodium) : Prop :=
  ∀ m sk,
    s.crypto_box_seal_open (s.crypto_box_seal m (s.crypto_scalarmult_base sk))
      (s.crypto_scalarmult_base sk) sk = some m

/-- libsodium contract: `from_base64 ∘ to_base64 = id` for the `ORIGINAL`
variant. -/
def B64Roundtrip (s : Sodium) : Prop :=
  ∀ d, s.from_base64 (s.to_base64 d B64Variant.ORIGINAL) B64Variant.ORIGINAL = some d

/-- libsodium contract: `to_string ∘ from_string = id` (UTF-8 codec). -/
def Utf8Roundtrip (s : Sodium) : Prop :=
  ∀ m, s.to_string (s.from_string m) = some m

-- ============================================
-- A concrete executable model of the primitives
-- ============================================

/-- Unary injective encoding of a byte list into characters, used as the toy
base64. -/
def toyB64Enc (d : List Nat) : List Char :=
  d.flatMap (fun n => List.replicate n 'a' ++ ['b'])

/-- Decoder for `toyB64Enc`: count `a`s before each `b`. -/
def toyB64Dec : List Char → Nat → List Nat
  | [], _ => []
  | c :: cs, k => if c = 'b' then k :: toyB64Dec cs 0 else toyB64Dec cs (k + 1)

/-- A small executable libsodium model satisfying every contract above. -/
def toySodium : Sodium where
  crypto_generichash := fun outLen msg => List.replicate outLen (msg.foldl (· + ·) 0)
  crypto_box_seed_keypair := fun seed =>
    { publicKey := seed.map (· + 1), privateKey := seed }
  crypto_scalarmult_base := fun sk => sk.map (· + 1)
  crypto_box_seal := fun data pk => pk.length :: (pk ++ data)
  crypto_box_seal_open := fun c pk sk =>
    match c with
    | [] => none
    | n :: rest =>
      if rest.take n = pk ∧ pk = sk.map (· + 1) then some (rest.drop n) else none
  crypto_secretbox_NONCEBYTES := 24
  crypto_secretbox_easy := fun m n k => n ++ k ++ m
  crypto_secretbox_open_easy := fun c n k =>
    if c.take (n.length + k.length) = n ++ k then
      some (c.drop (n.length + k.length))
    else none
  from_string := fun m => m.data.map Char.toNat
  to_string := fun l => some (String.mk (l.map Char.ofNat))
  to_base64 := fun d _ => String.mk (toyB64Enc d)
  from_base64 := fun st _ => some (toyB64Dec st.data 0)

/-- A concrete model of the noble hkdf/sha256 package and `TextEncoder`. -/
def toyNoble : NobleExt where
  hkdf := fun _ ikm salt info len =>
    List.replicate len ((ikm ++ salt ++ info).foldl (· + ·) 0)
  sha256 := fun l => l.map (· + 3)
  textEncode := fun m => m.data.map Char.toNat

/-- A libsodium model whose base64 decoder rejects every input, exposing the
hex fallback of `parsePublicKey`. -/
def nb64Sodium : Sodium :=
  { toySodium with from_base64 := fun _ _ => none }

/-- A derive environment whose JWT payload carries the audience claim as the
array `[""]` — every claim present, but the audience content empty. -/
def envAudArr : DeriveEnv where
  jwtFromWallet := some "jwt"
  decode := fun _ => some { sub := "u", iss := "i", aud := AudClaim.arr [""] }
  expired := fun _ => false
  fetchSalt := fun _ => Except.ok "salt"

/-- A derive environment whose JWT payload has an empty subject claim. -/
def envEmptySub : DeriveEnv where
  jwtFromWallet := some "j"
  decode := fun _ => some { sub := "", iss := "i", aud := AudClaim.str "a" }
  expired := fun _ => false
  fetchSalt := fun _ => Except.ok "s"

-- ============================================
-- Contract proofs for the toy model
-- ============================================

theorem toySodium_secretbox : SecretboxRoundtrip toySodium := by
  intro m n k
  show (if (n ++ k ++ m).take (n.length + k.length) = n ++ k then
      some ((n ++ k ++ m).drop (n.length + k.length)) else none) = some m
  rw [show n.length + k.length = (n ++ k).length from (List.length_append n k).symm,
    List.take_left, List.drop_left]
  simp

theorem toySodium_seal : SealRoundtrip toySodium := by
  intro m sk
  show (match (sk.map (· + 1)).length :: (sk.map (· + 1) ++ m) with
    | [] => none
    | n :: rest =>
      if rest.take n = sk.map (· + 1) ∧ sk.map (· + 1) = sk.map (· + 1) then
        some (rest.drop n) else none) = some m
  simp [List.take_left, List.drop_left]

theorem toySodium_b64 : B64Roundtrip toySodium := by
  intro d
  show some (toyB64Dec (toyB64Enc d) 0) = some d
  have step : ∀ n rest k,
      toyB64Dec (List.replicate n 'a' ++ 'b' :: rest) k = (k + n) :: toyB64Dec rest 0 := by
    intro n
    induction n with
    | zero => intro rest k; simp [toyB64Dec]
    | succ n ih =>
      intro rest k
      have : toyB64Dec (List.replicate (n + 1) 'a' ++ 'b' :: rest) k
          = toyB64Dec (List.replicate n 'a' ++ 'b' :: rest) (k + 1) := by
        simp [List.replicate_succ, toyB64Dec]
      rw [this, ih]
      congr 1
      omega
  induction d with
  | nil => rfl
  | cons h t ih =>
    have : toyB64Enc (h :: t) = List.replicate h 'a' ++ 'b' :: toyB64Enc t := by
      simp [toyB64Enc]
    rw [this, step]
    simpa using ih

theorem toySodium_utf8 : Utf8Roundtrip toySodium := by
  intro m
  show some (String.mk ((m.data.map Char.toNat).map Char.ofNat)) = some m
  rw [List.map_map]
  have : (Char.ofNat ∘ Char.toNat) = id := by
    funext c
    exact Char.ofNat_toNat c
  rw [this, List.map_id]

theorem randombytes_len (n : Nat) (r : Rng) : (randombytes_buf n r).fst.length = n := by
  simp [randombytes_buf]

-- ============================================
-- Claims
-- ============================================

/-- C1: `deriveEncryptionKeypair` is deterministic — its result is independent
of the ambient random stream (which it neither reads nor advances), and is
exactly the keypair generated from the fixed BLAKE2b hash of the signature, so
two calls on the same signature bytes agree byte-for-byte in both the public
and the secret key. -/
theorem deriveEncryptionKeypair_deterministic (s : Sodium) (sig : List Nat)
    (r1 r2 : Rng) :
    (deriveEncryptionKeypair s sig r1).fst = (deriveEncryptionKeypair s sig r2).fst
    ∧ (deriveEncryptionKeypair s sig r1).fst.publicKey
        = (s.crypto_box_seed_keypair (s.crypto_generichash 32 sig)).publicKey
    ∧ (deriveEncryptionKeypair s sig r1).fst.secretKey
        = (s.crypto_box_seed_keypair (s.crypto_generichash 32 sig)).privateKey
    ∧ (deriveEncryptionKeypair s sig r1).snd = r1 :=
  ⟨rfl, rfl, rfl, rfl⟩

/-- C2: for every message string (the UTF-8 codec round trip covers empty and
multi-byte content) and every key, `decryptMessage` inverts `encryptMessage`
under the documented libsodium codec and secret-box contracts. -/
theorem decryptMessage_encryptMessage_roundtrip (s : Sodium) (m : String)
    (k : List Nat) (r : Rng)
    (hb : B64Roundtrip s) (hu : Utf8Roundtrip s) (hsb : SecretboxRoundtrip s) :
    decryptMessage s (encryptMessage s m k r).fst k = some m := by
  have hnl : (randombytes_buf s.crypto_secretbox_NONCEBYTES r).fst.length
      = s.crypto_secretbox_NONCEBYTES := randombytes_len _ _
  simp only [encryptMessage, decryptMessage]
  rw [hb]
  simp only [MESSAGE_VERSION, ne_eq, not_true_eq_false, if_false, reduceIte]
  generalize hg : (randombytes_buf s.crypto_secretbox_NONCEBYTES r).fst = nonce at hnl ⊢
  rw [← hnl, List.take_left, List.drop_left, hsb]
  exact hu m

/-- C3: under the sealed-box contract, unwrapping a wrapped room key with the
matching secret key returns the key, and the full orchestrator chain
(unwrap as inviter, re-wrap for invitee, unwrap as invitee) also returns it. -/
theorem sealedBox_invite_chain_roundtrip (s : Sodium) (K pkA skA pkB skB : List Nat)
    (hseal : SealRoundtrip s)
    (hA : pkA = s.crypto_scalarmult_base skA)
    (hB : pkB = s.crypto_scalarmult_base skB) :
    decryptWithSecretKey s (encryptWithPublicKey s K pkA) skA = some K
    ∧ inviteChain s K pkA skA pkB skB = some K := by
  have h1 : decryptWithSecretKey s (encryptWithPublicKey s K pkA) skA = some K := by
    rw [hA]; exact hseal K skA
  refine ⟨h1, ?_⟩
  unfold inviteChain
  rw [h1]
  show decryptWithSecretKey s (encryptWithPublicKey s K pkB) skB = some K
  rw [hB]; exact hseal K skB

/-- C4: the zkLogin derivation's seed is exactly the spec's HKDF formula
(ikm = userSalt, salt = issuer `:` audience, info = subject, length 32), and it
is fed to the same keypair generation as the signature path: whenever the two
paths' seeds coincide, the derived keypairs coincide. -/
theorem deriveEncryptionKeypairFromZkLogin_seed_spec (s : Sodium) (e : NobleExt)
    (claims : ZkLoginClaims) (sig : List Nat) (r : Rng)
    (h : s.crypto_generichash 32 sig = seedFromClaimsSpec e claims) :
    deriveEncryptionKeypairFromZkLogin s e claims
      = { publicKey := (s.crypto_box_seed_keypair (seedFromClaimsSpec e claims)).publicKey,
          secretKey := (s.crypto_box_seed_keypair (seedFromClaimsSpec e claims)).privateKey }
    ∧ (deriveEncryptionKeypair s sig r).fst
      = deriveEncryptionKeypairFromZkLogin s e claims := by
  constructor
  · rfl
  · simp only [deriveEncryptionKeypair, deriveEncryptionKeypairFromZkLogin, h,
      seedFromClaimsSpec]

/-- C2 witness: concrete round trip in the toy model. -/
theorem decryptMessage_encryptMessage_roundtrip_witness :
    decryptMessage toySodium
      (encryptMessage toySodium "hi" [3] (fun _ => 0)).fst [3] = some "hi" :=
  decryptMessage_encryptMessage_roundtrip toySodium "hi" [3] (fun _ => 0)
    toySodium_b64 toySodium_utf8 toySodium_secretbox

/-- C3 witness: concrete member and orchestrator-chain round trips in the toy
model. -/
theorem sealedBox_invite_chain_roundtrip_witness :
    decryptWithSecretKey toySodium (encryptWithPublicKey toySodium [9] [4]) [3]
      = some [9]
    ∧ inviteChain toySodium [9] [4] [3] [6] [5] = some [9] :=
  sealedBox_invite_chain_roundtrip toySodium [9] [4] [3] [6] [5]
    toySodium_seal (by decide) (by decide)

/-- C4 witness: concrete claims whose HKDF seed coincides with the BLAKE2b
seed of a concrete signature, making the two derivation paths agree. -/
theorem deriveEncryptionKeypairFromZkLogin_seed_spec_witness :
    deriveEncryptionKeypairFromZkLogin toySodium toyNoble
        { sub := "b", iss := "a", aud := "c", userSalt := "d" }
      = { publicKey := (toySodium.crypto_box_seed_keypair (seedFromClaimsSpec
            toyNoble { sub := "b", iss := "a", aud := "c", userSalt := "d" })).publicKey,
          secretKey := (toySodium.crypto_box_seed_keypair (seedFromClaimsSpec
            toyNoble { sub := "b", iss := "a", aud := "c", userSalt := "d" })).privateKey }
    ∧ (deriveEncryptionKeypair toySodium [452] (fun _ => 0)).fst
      = deriveEncryptionKeypairFromZkLogin toySodium toyNoble
          { sub := "b", iss := "a", aud := "c", userSalt := "d" } :=
  deriveEncryptionKeypairFromZkLogin_seed_spec toySodium toyNoble
    { sub := "b", iss := "a", aud := "c", userSalt := "d" } [452] (fun _ => 0)
    (by decide)

/-- C5 counterexample: an `aud` claim delivered as the array `[""]` is truthy
in the JS guard, so `derive` does not abort — it derives a keypair from a
claims record whose audience is the empty string. -/
theorem derive_emptyAud_array_counterexample :
    derive toySodium toyNoble envAudArr true
      = Except.ok (deriveEncryptionKeypairFromZkLogin toySodium toyNoble
          { sub := "u", iss := "i", aud := "", userSalt := "salt" })
    ∧ isErr (derive toySodium toyNoble envAudArr true) = false :=
  ⟨rfl, rfl⟩

/-- C5 (amended): the derive flow aborts with an explicit error whenever the
decoded payload has an empty subject, an empty issuer, or an audience claim
that is the empty *string*, or whenever the salt fetch fails — the emptiness
of an audience delivered as an array is not checked. -/
theorem derive_aborts_on_missing_claims (s : Sodium) (e : NobleExt)
    (env : DeriveEnv) (isZkLogin : Bool)
    (h : ∀ jwt payload, env.jwtFromWallet = some jwt → env.decode jwt = some payload →
      (payload.sub = "" ∨ payload.iss = "" ∨ payload.aud = AudClaim.str "")
      ∨ ∃ msg, env.fetchSalt jwt = Except.error msg) :
    isErr (derive s e env isZkLogin) = true := by
  cases isZkLogin with
  | false => rfl
  | true =>
    cases hj : env.jwtFromWallet with
    | none =>
      have hsd : getZkLoginSessionData env = none := by
        simp only [getZkLoginSessionData, hj]
      simp only [derive, hsd]
      rfl
    | some jwt =>
      cases hd : env.decode jwt with
      | none =>
        have hsd : getZkLoginSessionData env = none := by
          simp only [getZkLoginSessionData, hj, hd]
        simp only [derive, hsd]
        rfl
      | some payload =>
        by_cases hg : payload.sub = "" ∨ payload.iss = "" ∨ audFalsy payload.aud = true
        · have hsd : getZkLoginSessionData env = none := by
            simp only [getZkLoginSessionData, hj, hd, if_pos hg]
          simp only [derive, hsd]
          rfl
        · have hsd : getZkLoginSessionData env
              = some { jwt := jwt, sub := payload.sub, iss := payload.iss,
                       aud := audFirst payload.aud } := by
            simp only [getZkLoginSessionData, hj, hd, if_neg hg]
          rcases h jwt payload hj hd with hempty | ⟨msg, hsalt⟩
          · refine absurd ?_ hg
            rcases hempty with h1 | h1 | h1
            · exact Or.inl h1
            · exact Or.inr (Or.inl h1)
            · exact Or.inr (Or.inr (by rw [h1]; rfl))
          · by_cases hexp : env.expired jwt = true
            · simp only [derive, hsd]
              simp [hexp, isErr]
            · simp only [derive, hsd]
              simp [hexp, hsalt, isErr]

/-- C5 witness for the amended theorem: an empty subject claim aborts. -/
theorem derive_aborts_on_missing_claims_witness :
    isErr (derive toySodium toyNoble envEmptySub true) = true :=
  derive_aborts_on_missing_claims toySodium toyNoble envEmptySub true (by
    intro jwt payload hj hd
    left
    left
    cases hd
    rfl)

/-- C6: `prepareEncryptedKeyForInvite` is exactly the fail-fast chain
fetch → unwrap → wrap: a missing wrapped-key fetch or a failed unwrap yields
`null` with no wrapping performed, and every non-`null` result is the wrap,
for the invitee, of a successfully unwrapped key. -/
theorem prepareEncryptedKeyForInvite_fail_fast (s : Sodium)
    (fetchKey : Option (List Nat)) (inviterSecretKey inviteePublicKey : List Nat) :
    prepareEncryptedKeyForInvite s fetchKey inviterSecretKey inviteePublicKey
      = fetchKey.bind (fun ek =>
          (decryptWithSecretKey s ek inviterSecretKey).map
            (fun dk => encryptWithPublicKey s dk inviteePublicKey)) := by
  cases fetchKey with
  | none => rfl
  | some encryptedKey =>
    simp only [prepareEncryptedKeyForInvite, Option.bind_some]
    cases h : decryptWithSecretKey s encryptedKey inviterSecretKey <;> simp [h]

/-- C7: an invitee public key that parses to anything other than exactly 32
bytes makes `prepareInvite` return `null` — no wrapping is attempted and the
key is never padded or truncated. -/
theorem prepareInvite_rejects_wrong_length_key (s : Sodium)
    (fetchKey : Option (List Nat)) (inviterKeypair : Keypair) (pkIn : PKInput)
    (b : List Nat)
    (h1 : parsePublicKey s pkIn = some b) (h2 : b.length ≠ 32) :
    prepareInvite s fetchKey inviterKeypair pkIn = none := by
  simp only [prepareInvite, h1]
  rw [if_pos h2]

/-- C7 witness: a 3-byte invitee key is rejected. -/
theorem prepareInvite_rejects_wrong_length_key_witness :
    parsePublicKey toySodium (PKInput.arr [1, 2, 3]) = some [1, 2, 3]
    ∧ prepareInvite toySodium (some [5]) { publicKey := [], secretKey := [] }
        (PKInput.arr [1, 2, 3]) = none :=
  ⟨by decide, prepareInvite_rejects_wrong_length_key toySodium (some [5])
    { publicKey := [], secretKey := [] } (PKInput.arr [1, 2, 3]) [1, 2, 3]
    (by decide) (by decide)⟩

/-- C8: the envelope is the `ORIGINAL`-alphabet base64 encoding of exactly
`0x01 :: nonce ++ ciphertext` with a 24-byte nonce, and decoding it recovers
that byte sequence. -/
theorem encryptMessage_envelope_layout (s : Sodium) (m : String) (k : List Nat)
    (r : Rng)
    (hN : s.crypto_secretbox_NONCEBYTES = 24) (hb : B64Roundtrip s) :
    (encryptMessage s m k r).fst
      = s.to_base64 (MESSAGE_VERSION :: ((randombytes_buf 24 r).fst
          ++ s.crypto_secretbox_easy (s.from_string m) (randombytes_buf 24 r).fst k))
          B64Variant.ORIGINAL
    ∧ s.from_base64 (encryptMessage s m k r).fst B64Variant.ORIGINAL
      = some (MESSAGE_VERSION :: ((randombytes_buf 24 r).fst
          ++ s.crypto_secretbox_easy (s.from_string m) (randombytes_buf 24 r).fst k))
    ∧ (randombytes_buf 24 r).fst.length = 24
    ∧ MESSAGE_VERSION = 1 := by
  have henc : (encryptMessage s m k r).fst
      = s.to_base64 (MESSAGE_VERSION :: ((randombytes_buf 24 r).fst
          ++ s.crypto_secretbox_easy (s.from_string m) (randombytes_buf 24 r).fst k))
          B64Variant.ORIGINAL := by
    simp only [encryptMessage, hN]
  refine ⟨henc, ?_, randombytes_len 24 r, rfl⟩
  rw [henc, hb]

/-- C8 witness: concrete envelope layout in the toy model. -/
theorem encryptMessage_envelope_layout_witness :
    (encryptMessage toySodium "m" [2] (fun _ => 1)).fst
      = toySodium.to_base64 (MESSAGE_VERSION :: ((randombytes_buf 24 (fun _ => 1)).fst
          ++ toySodium.crypto_secretbox_easy (toySodium.from_string "m")
              (randombytes_buf 24 (fun _ => 1)).fst [2]))
          B64Variant.ORIGINAL
    ∧ toySodium.from_base64 (encryptMessage toySodium "m" [2] (fun _ => 1)).fst
        B64Variant.ORIGINAL
      = some (MESSAGE_VERSION :: ((randombytes_buf 24 (fun _ => 1)).fst
          ++ toySodium.crypto_secretbox_easy (toySodium.from_string "m")
              (randombytes_buf 24 (fun _ => 1)).fst [2]))
    ∧ (randombytes_buf 24 (fun _ => 1)).fst.length = 24
    ∧ MESSAGE_VERSION = 1 :=
  encryptMessage_envelope_layout toySodium "m" [2] (fun _ => 1) rfl toySodium_b64

/-- C9: an envelope whose decoded byte 0 differs from the supported version
constant (or is absent) fails to decrypt under every key. -/
theorem decryptMessage_version_rejection (s : Sodium) (k : List Nat)
    (em : String) (data : List Nat)
    (hdec : s.from_base64 em B64Variant.ORIGINAL = some data)
    (hver : data.head? ≠ some MESSAGE_VERSION) :
    decryptMessage s em k = none := by
  simp only [decryptMessage, hdec]
  cases data with
  | nil => rfl
  | cons v rest =>
    have hv : v ≠ MESSAGE_VERSION := by
      intro hcontra
      exact hver (by rw [hcontra]; rfl)
    simp [hv]

/-- C9 witness: a version-2 envelope is rejected even though the toy decode
succeeds. -/
theorem decryptMessage_version_rejection_witness :
    decryptMessage toySodium (toySodium.to_base64 [2, 9] B64Variant.ORIGINAL) [7]
      = none :=
  decryptMessage_version_rejection toySodium [7]
    (toySodium.to_base64 [2, 9] B64Variant.ORIGINAL) [2, 9]
    (toySodium_b64 [2, 9]) (by decide)

/-- C10 counterexample: the chunk `"5g"` is not valid hex, yet JS
`parseInt` prefix-parsing turns it into byte 5, not byte 0 as the claim
states. -/
theorem parsePublicKey_hex_not_zero_counterexample :
    parsePublicKey nb64Sodium (PKInput.str "5g") = some [5]
    ∧ claimHexInterp "5g" = [0]
    ∧ hexFallback "5g" = [5] := by
  refine ⟨?_, ?_, ?_⟩ <;> decide

/-- C10 (amended): `parsePublicKey` never signals a parse error on a string —
a string the base64 decoder accepts yields the decoded bytes, and any other
string yields the hex interpretation, in which each chunk is read by
`parseInt(chunk, 16)` prefix semantics (a chunk with no leading hex digit
becomes `NaN` and is coerced to byte 0, but a chunk such as `"5g"` parses to
its leading digit's value); garbage can only be rejected later by the
separate 32-byte length check. -/
theorem parsePublicKey_total_with_hex_fallback (s : Sodium) (str : String) :
    parsePublicKey s (PKInput.str str)
      = some ((s.from_base64 str B64Variant.ORIGINAL).getD (hexFallback str)) := by
  simp only [parsePublicKey]
  cases s.from_base64 str B64Variant.ORIGINAL <;> rfl
